import Mathlib

/-!
Verification of a Tower-of-Hanoi Q-learning repository.

The environment (`padm_env.py`, class `HanoiTower`) and the trainer
(`q_learning.py`, `train_q_learning` / `state_to_index`) are shallowly
embedded below: the mutable instance attributes of `HanoiTower` become the
fields of `HanoiEnv`, methods become pure functions threading that record,
python `float` rewards become exact rationals, and the `done` attribute —
which is `None` after `__init__`, `False` after `reset` and `True` once the
goal is reached — becomes an `Option Bool`.
-/

/-- State of a `HanoiTower` instance: the attributes set in `__init__`
(`numDisks`, `agentState`, `goalState`, `reward`, `done`).  `agentState`
is the tuple whose `i`-th entry is the peg (0, 1 or 2) holding disk `i`. -/
structure HanoiEnv where
  numDisks : Nat
  agentState : List Nat
  goalState : List Nat
  reward : ℚ
  done : Option Bool
deriving DecidableEq

/-- The tuple returned by `HanoiTower.step`:
`(self.agentState, self.reward, self.done, info)`. -/
structure StepResult where
  state : List Nat
  reward : ℚ
  done : Option Bool
  info : String
deriving DecidableEq

/-- `HanoiTower.__init__(numDisks)`: `agentState = numDisks * (0,)`,
`goalState = numDisks * (2,)`, `reward = 0`, `done = None`.  The argument is
an integer and no validation is performed; a non-positive `numDisks` yields
empty tuples, exactly as `n * (0,)` does in python. -/
def hanoiInit (numDisks : Int) : HanoiEnv :=
  { numDisks := numDisks.toNat
  , agentState := List.replicate numDisks.toNat 0
  , goalState := List.replicate numDisks.toNat 2
  , reward := 0
  , done := none }

/-- `HanoiTower.disksOnPeg(peg)`: the list of disk indices `d` in
`range(numDisks)` with `agentState[d] == peg` (in increasing order, as the
python loop builds it).  Out-of-range indexing is modelled with the default
`3`, which never equals a peg of the 6-action table. -/
def disksOnPeg (numDisks : Nat) (state : List Nat) (peg : Nat) : List Nat :=
  (List.range numDisks).filter (fun disk => state.getD disk 3 == peg)

/-- Python's `min` on a nonempty list (the `[]` value 0 is never used by the
embedded code: both call sites guard on nonemptiness). -/
def listMin : List Nat → Nat
  | [] => 0
  | a :: as => as.foldl Nat.min a

/-- `HanoiTower.moveAllowed(action)` for `action = (src, dst)`:
`disks_from` nonempty and (`disks_to` empty or
`min(disks_to) > min(disks_from)`). -/
def moveAllowed (numDisks : Nat) (state : List Nat) (action : Nat × Nat) : Bool :=
  let disks_from := disksOnPeg numDisks state action.1
  let disks_to := disksOnPeg numDisks state action.2
  if disks_from.isEmpty then
    false
  else
    if disks_to.isEmpty then
      true
    else
      decide (listMin disks_to > listMin disks_from)

/-- `HanoiTower.step(action)`.  Legal move: the smallest disk on the source
peg is reassigned to the destination peg and `reward = -0.001`; illegal
move: state unchanged, `reward = -0.1`, `info = "Invalid action"`.  Then,
if `agentState == goalState`, `reward = +1` and `done = True` (otherwise
`done` keeps its previous value).  Returns the updated instance together
with the returned 4-tuple. -/
def step (env : HanoiEnv) (action : Nat × Nat) : HanoiEnv × StepResult :=
  let legal := moveAllowed env.numDisks env.agentState action
  let state1 :=
    if legal then
      let diskToMove := listMin (disksOnPeg env.numDisks env.agentState action.1)
      env.agentState.set diskToMove action.2
    else
      env.agentState
  let reward1 : ℚ := if legal then -1/1000 else -1/10
  let info1 := if legal then "Move was successfull but did not reach goal" else "Invalid action"
  let atGoal := state1 = env.goalState
  let reward2 : ℚ := if atGoal then 1 else reward1
  let done2 : Option Bool := if atGoal then some true else env.done
  let info2 := if atGoal then "Reached the goal" else info1
  ( { env with agentState := state1, reward := reward2, done := done2 }
  , { state := state1, reward := reward2, done := done2, info := info2 } )

/-- `HanoiTower.reset()`: all disks back on peg 0, `done = False`; returns
the new instance and the returned initial state. -/
def reset (env : HanoiEnv) : HanoiEnv × List Nat :=
  let s := List.replicate env.numDisks 0
  ({ env with agentState := s, done := some false }, s)

/-- The fixed action table `actionToMove` of `train_q_learning`
(`q_learning.py`): the list indexed by the action index the trainer samples
or arg-maxes, giving the `(source, destination)` pair passed to
`env.step`. -/
def actionToMove : List (Nat × Nat) :=
  [(0, 1), (0, 2), (1, 0), (1, 2), (2, 0), (2, 1)]

/-- `state_to_index(state)` (`q_learning.py`): the base-3 value
`Σ state[i] * 3^(len(state) - i - 1)`, disk 0 most significant, computed
here by recursion on the list (the head contributes
`disk * 3 ^ (len - 0 - 1) = disk * 3 ^ rest.length`). -/
def state_to_index : List Nat → Nat
  | [] => 0
  | disk :: rest => disk * 3 ^ rest.length + state_to_index rest

/-- Modelled from the spec: `indexToState` does not exist in the source
(only its round-trip contract with `stateToIndex` is specified); per the
spec it is the base-3 decode with disk 0 as the most significant digit:
digit `i` of an `n`-digit index is `index / 3^(n-i-1) % 3`. -/
def indexToState : Nat → Nat → List Nat
  | 0, _ => []
  | n + 1, index => index / 3 ^ n % 3 :: indexToState n index

/-- The Q-table row maximum `np.max(q_table[s])` over the 6 action columns. -/
def rowMax (q : Nat → Nat → ℚ) (s : Nat) : ℚ :=
  max (q s 0) (max (q s 1) (max (q s 2) (max (q s 3) (max (q s 4) (q s 5)))))

/-- Point update of the Q-table at one `(state, action)` cell, as the numpy
assignment `q_table[i][a] = v` does. -/
def qUpdate (q : Nat → Nat → ℚ) (s a : Nat) (v : ℚ) : Nat → Nat → ℚ :=
  fun i j => if i = s ∧ j = a then v else q i j

/-- One iteration of the inner `while True` loop of `train_q_learning`,
after the action index has been chosen: perform `env.step(actionToMove[action])`,
update `q_table[current_index][action]` with the discounted TD target, move
`state` forward, and — when `done` — apply the extra terminal update to
`q_table[next_index][action]` before breaking.  Returns the new table, the
new env, the new `state` variable of the loop, and whether the loop breaks. -/
def trainStep (env : HanoiEnv) (q : Nat → Nat → ℚ) (state : List Nat)
    (action : Nat) (alpha gamma : ℚ) :
    (Nat → Nat → ℚ) × HanoiEnv × List Nat × Bool :=
  let res := step env (actionToMove.getD action (0, 0))
  let next_state := res.2.state
  let reward := res.2.reward
  let done := res.2.done
  let current_index := state_to_index state
  let next_index := state_to_index next_state
  let q1 := qUpdate q current_index action
    (q current_index action +
      alpha * (reward + gamma * rowMax q next_index - q current_index action))
  let q2 :=
    if done = some true then
      qUpdate q1 next_index action
        (q1 next_index action + alpha * (reward - q1 next_index action))
    else
      q1
  (q2, res.1, next_state, done = some true)

/-! ### Helper lemmas about the embedded operations -/

theorem foldl_min_eq_or_mem (as : List Nat) : ∀ a : Nat,
    as.foldl Nat.min a = a ∨ as.foldl Nat.min a ∈ as := by
  induction as with
  | nil => intro a; exact Or.inl rfl
  | cons b bs ih =>
    intro a
    simp only [List.foldl_cons]
    rcases ih (Nat.min a b) with h | h
    · rw [h]
      have hc : Nat.min a b = a ∨ Nat.min a b = b := min_choice a b
      rcases hc with hc | hc
      · exact Or.inl hc
      · rw [hc]; exact Or.inr (List.mem_cons_self b bs)
    · exact Or.inr (List.mem_cons_of_mem b h)

theorem listMin_mem (l : List Nat) (h : l ≠ []) : listMin l ∈ l := by
  match l with
  | [] => exact absurd rfl h
  | a :: as =>
    rw [listMin]
    rcases foldl_min_eq_or_mem as a with h1 | h1
    · rw [h1]; exact List.mem_cons_self a as
    · exact List.mem_cons_of_mem a h1

theorem mem_disksOnPeg (n : Nat) (state : List Nat) (peg d : Nat) :
    d ∈ disksOnPeg n state peg ↔ d < n ∧ state.getD d 3 = peg := by
  simp [disksOnPeg, List.mem_filter, List.mem_range]

theorem moveAllowed_from_nonempty {n : Nat} {state : List Nat} {a : Nat × Nat}
    (h : moveAllowed n state a = true) : disksOnPeg n state a.1 ≠ [] := by
  intro hemp
  unfold moveAllowed at h
  simp [hemp] at h

theorem step_result_state (env : HanoiEnv) (a : Nat × Nat) :
    (step env a).2.state =
      if moveAllowed env.numDisks env.agentState a then
        env.agentState.set (listMin (disksOnPeg env.numDisks env.agentState a.1)) a.2
      else env.agentState := rfl

theorem step_result_reward (env : HanoiEnv) (a : Nat × Nat) :
    (step env a).2.reward =
      if (step env a).2.state = env.goalState then 1
      else if moveAllowed env.numDisks env.agentState a then -1/1000 else -1/10 := rfl

theorem step_result_done (env : HanoiEnv) (a : Nat × Nat) :
    (step env a).2.done =
      if (step env a).2.state = env.goalState then some true else env.done := rfl

theorem step_result_info (env : HanoiEnv) (a : Nat × Nat) :
    (step env a).2.info =
      if (step env a).2.state = env.goalState then "Reached the goal"
      else if moveAllowed env.numDisks env.agentState a then
        "Move was successfull but did not reach goal"
      else "Invalid action" := rfl

theorem step_env_eq (env : HanoiEnv) (a : Nat × Nat) :
    (step env a).1 =
      { env with
        agentState := (step env a).2.state
        reward := (step env a).2.reward
        done := (step env a).2.done } := rfl

/-! ### Helper lemmas for the state index -/

theorem state_to_index_lt (state : List Nat) (h : ∀ x ∈ state, x < 3) :
    state_to_index state < 3 ^ state.length := by
  induction state with
  | nil => simp [state_to_index]
  | cons d rest ih =>
    have hd : d < 3 := h d (List.mem_cons_self d rest)
    have hr := ih (fun x hx => h x (List.mem_cons_of_mem d hx))
    rw [state_to_index, List.length_cons, pow_succ]
    calc d * 3 ^ rest.length + state_to_index rest
        < d * 3 ^ rest.length + 3 ^ rest.length := Nat.add_lt_add_left hr _
      _ = (d + 1) * 3 ^ rest.length := by ring
      _ ≤ 3 * 3 ^ rest.length := Nat.mul_le_mul_right _ hd
      _ = 3 ^ rest.length * 3 := by ring

theorem state_to_index_eq_sum (state : List Nat) :
    state_to_index state =
      ∑ i in Finset.range state.length, state.getD i 0 * 3 ^ (state.length - 1 - i) := by
  induction state with
  | nil => simp [state_to_index]
  | cons d rest ih =>
    rw [state_to_index, List.length_cons, Finset.sum_range_succ']
    have h0 : (d :: rest).getD 0 0 * 3 ^ (rest.length + 1 - 1 - 0) = d * 3 ^ rest.length := by
      simp
    have hsum : ∀ i ∈ Finset.range rest.length,
        (d :: rest).getD (i + 1) 0 * 3 ^ (rest.length + 1 - 1 - (i + 1)) =
          rest.getD i 0 * 3 ^ (rest.length - 1 - i) := by
      intro i _
      have he : rest.length + 1 - 1 - (i + 1) = rest.length - 1 - i := by omega
      rw [he, List.getD_cons_succ]
    rw [h0, Finset.sum_congr rfl hsum, ← ih]
    omega

theorem indexToState_length (n : Nat) : ∀ index : Nat, (indexToState n index).length = n := by
  induction n with
  | zero => intro index; rfl
  | succ n ih => intro index; simp [indexToState, ih]

theorem indexToState_mem_lt (n : Nat) : ∀ index : Nat, ∀ x ∈ indexToState n index, x < 3 := by
  induction n with
  | zero => intro index x hx; simp [indexToState] at hx
  | succ n ih =>
    intro index x hx
    rw [indexToState] at hx
    rcases List.mem_cons.mp hx with h | h
    · subst h; exact Nat.mod_lt _ (by norm_num)
    · exact ih index x h

theorem indexToState_mul_add (n : Nat) : ∀ t r : Nat,
    indexToState n (t * 3 ^ n + r) = indexToState n r := by
  induction n with
  | zero => intro t r; rfl
  | succ n ih =>
    intro t r
    rw [indexToState, indexToState]
    have htail : indexToState n (t * 3 ^ (n + 1) + r) = indexToState n r := by
      have he : t * 3 ^ (n + 1) + r = t * 3 * 3 ^ n + r := by ring
      rw [he, ih]
    have hhead : (t * 3 ^ (n + 1) + r) / 3 ^ n % 3 = r / 3 ^ n % 3 := by
      have he : t * 3 ^ (n + 1) + r = r + 3 ^ n * (t * 3) := by ring
      rw [he, Nat.add_mul_div_left _ _ (pow_pos (by norm_num) n),
        Nat.add_mul_mod_self_right]
    rw [hhead, htail]

theorem indexToState_state_to_index (state : List Nat) (h : ∀ x ∈ state, x < 3) :
    indexToState state.length (state_to_index state) = state := by
  induction state with
  | nil => rfl
  | cons d rest ih =>
    have hd : d < 3 := h d (List.mem_cons_self d rest)
    have hrest : ∀ x ∈ rest, x < 3 := fun x hx => h x (List.mem_cons_of_mem d hx)
    have hr : state_to_index rest < 3 ^ rest.length := state_to_index_lt rest hrest
    rw [List.length_cons, state_to_index, indexToState]
    have hhead : (d * 3 ^ rest.length + state_to_index rest) / 3 ^ rest.length % 3 = d := by
      have he : d * 3 ^ rest.length + state_to_index rest =
          state_to_index rest + 3 ^ rest.length * d := by ring
      rw [he, Nat.add_mul_div_left _ _ (pow_pos (by norm_num) _), Nat.div_eq_of_lt hr]
      simp [Nat.mod_eq_of_lt hd]
    have htail : indexToState rest.length (d * 3 ^ rest.length + state_to_index rest) = rest := by
      rw [indexToState_mul_add, ih hrest]
    rw [hhead, htail]

theorem state_to_index_indexToState (n : Nat) : ∀ index : Nat,
    state_to_index (indexToState n index) = index % 3 ^ n := by
  induction n with
  | zero => intro index; simp [indexToState, state_to_index, Nat.mod_one]
  | succ n ih =>
    intro index
    rw [indexToState, state_to_index, indexToState_length, ih]
    rw [pow_succ, Nat.mod_mul]
    ring

theorem state_to_index_replicate_zero (n : Nat) :
    state_to_index (List.replicate n 0) = 0 := by
  induction n with
  | zero => rfl
  | succ n ih => rw [List.replicate_succ, state_to_index, ih]; simp

theorem state_to_index_replicate_two (n : Nat) :
    state_to_index (List.replicate n 2) = 3 ^ n - 1 := by
  induction n with
  | zero => rfl
  | succ n ih =>
    rw [List.replicate_succ, state_to_index, ih, List.length_replicate, pow_succ]
    have h3 : 1 ≤ 3 ^ n := Nat.one_le_two_pow.trans (Nat.pow_le_pow_left (by norm_num) n)
    omega

/-- C8: the trainer's action-index encoding is, in order,
0↦(0,1), 1↦(0,2), 2↦(1,0), 3↦(1,2), 4↦(2,0), 5↦(2,1), and every pair has
distinct source and destination pegs. -/
theorem c8_action_encoding :
    actionToMove = [(0, 1), (0, 2), (1, 0), (1, 2), (2, 0), (2, 1)] ∧
    ∀ p ∈ actionToMove, p.1 ≠ p.2 := by
  decide

/-! ### Spec-side statements used by the claims -/

/-- The spec's legality condition for an action `(src, dst)`: the source peg
holds at least one disk, and the destination peg is empty or its minimum
disk index is strictly greater than the source peg's minimum disk index. -/
def legalitySpec (n : Nat) (state : List Nat) (a : Nat × Nat) : Prop :=
  disksOnPeg n state a.1 ≠ [] ∧
    (disksOnPeg n state a.2 = [] ∨
      listMin (disksOnPeg n state a.1) < listMin (disksOnPeg n state a.2))

/-- The spec's TD(0) update
`Q[s,a] ← Q[s,a] + alpha * (reward + gamma * max Q[sNext] - Q[s,a])`. -/
def bellmanUpdate (q : Nat → Nat → ℚ) (s a sNext : Nat) (reward alpha gamma : ℚ) :
    Nat → Nat → ℚ :=
  qUpdate q s a (q s a + alpha * (reward + gamma * rowMax q sNext - q s a))

/-- The spec's bootstrap-free terminal update
`Q[sNext,a] ← Q[sNext,a] + alpha * (reward - Q[sNext,a])`. -/
def terminalUpdate (q : Nat → Nat → ℚ) (sNext a : Nat) (reward alpha : ℚ) :
    Nat → Nat → ℚ :=
  qUpdate q sNext a (q sNext a + alpha * (reward - q sNext a))

/-- C1: for every state and every action `(src, dst)` of the fixed 6-action
table, `moveAllowed` returns true iff the source peg is nonempty and (the
destination peg is empty or its minimum disk index is strictly greater than
the source peg's); in particular it is false when the source peg is empty,
and true when the source is nonempty and the destination empty. -/
theorem c1_move_legality (n : Nat) (state : List Nat) (a : Nat × Nat)
    (ha : a ∈ actionToMove) :
    (moveAllowed n state a = true ↔ legalitySpec n state a) ∧
    (disksOnPeg n state a.1 = [] → moveAllowed n state a = false) ∧
    (disksOnPeg n state a.1 ≠ [] → disksOnPeg n state a.2 = [] →
      moveAllowed n state a = true) := by
  have hiff : moveAllowed n state a = true ↔ legalitySpec n state a := by
    unfold moveAllowed legalitySpec
    by_cases hf : disksOnPeg n state a.1 = []
    · simp [hf]
    · by_cases ht : disksOnPeg n state a.2 = []
      · simp [hf, ht]
      · simp [hf, ht]
  refine ⟨hiff, ?_, ?_⟩
  · intro hf
    rw [Bool.eq_false_iff]
    intro h
    exact (hiff.mp h).1 hf
  · intro hf ht
    exact hiff.mpr ⟨hf, Or.inl ht⟩

/-- Witness for C1 at the one-disk initial state and action `(0, 1)`. -/
theorem c1_move_legality_witness :
    (moveAllowed 1 [0] (0, 1) = true ↔ legalitySpec 1 [0] (0, 1)) ∧
    (disksOnPeg 1 [0] 0 ≠ [] → disksOnPeg 1 [0] 1 = [] →
      moveAllowed 1 [0] (0, 1) = true) := by
  have h := c1_move_legality 1 [0] (0, 1) (by decide)
  exact ⟨h.1, h.2.2⟩

/-- C2: each iteration of the training loop applies the TD(0) update
`Q[s,a] += alpha * (reward + gamma * max Q[s'] - Q[s,a])` at the pre-step
state index, and exactly on a terminal step additionally applies the
bootstrap-free update `Q[s',a] += alpha * (reward - Q[s',a])` at the
post-transition state index with the same action index, before breaking;
the two named updates act pointwise on exactly one Q-table cell. -/
theorem c2_q_update (env : HanoiEnv) (q : Nat → Nat → ℚ) (state : List Nat)
    (action : Nat) (alpha gamma : ℚ) :
    ((trainStep env q state action alpha gamma).1 =
      (let res := step env (actionToMove.getD action (0, 0));
       let s := state_to_index state;
       let sNext := state_to_index res.2.state;
       let q1 := bellmanUpdate q s action sNext res.2.reward alpha gamma;
       if res.2.done = some true then
         terminalUpdate q1 sNext action res.2.reward alpha
       else q1)) ∧
    ((trainStep env q state action alpha gamma).2.2.1 =
      (step env (actionToMove.getD action (0, 0))).2.state) ∧
    ((trainStep env q state action alpha gamma).2.2.2 = true ↔
      (step env (actionToMove.getD action (0, 0))).2.done = some true) ∧
    (∀ q0 : Nat → Nat → ℚ, ∀ s a sN i j : Nat, ∀ r al ga : ℚ,
      bellmanUpdate q0 s a sN r al ga i j =
        if i = s ∧ j = a then q0 s a + al * (r + ga * rowMax q0 sN - q0 s a)
        else q0 i j) ∧
    (∀ q0 : Nat → Nat → ℚ, ∀ sN a i j : Nat, ∀ r al : ℚ,
      terminalUpdate q0 sN a r al i j =
        if i = sN ∧ j = a then q0 sN a + al * (r - q0 sN a) else q0 i j) := by
  refine ⟨rfl, rfl, ?_, ?_, ?_⟩
  · exact decide_eq_true_iff
  · intro q0 s a sN i j r al ga; rfl
  · intro q0 sN a i j r al; rfl

/-- C3: a legal step whose result is not the goal state returns reward
`-0.001`; whenever the resulting state equals the goal state the step
returns reward `+1.0` and `done = True`, whatever the action was. -/
theorem c3_step_rewards (env : HanoiEnv) (a : Nat × Nat) :
    (moveAllowed env.numDisks env.agentState a = true →
      (step env a).2.state ≠ env.goalState →
      (step env a).2.reward = -1/1000) ∧
    ((step env a).2.state = env.goalState →
      (step env a).2.reward = 1 ∧ (step env a).2.done = some true) := by
  constructor
  · intro hl hg
    rw [step_result_reward, if_neg hg, if_pos hl]
  · intro hg
    constructor
    · rw [step_result_reward, if_pos hg]
    · rw [step_result_done, if_pos hg]

/-- Witness for C3: with one disk, the legal move `(0, 1)` earns `-0.001`,
and the legal move `(0, 2)` reaches the goal with reward `1` and
`done = True`. -/
theorem c3_step_rewards_witness :
    (step (hanoiInit 1) (0, 1)).2.reward = -1/1000 ∧
    (step (hanoiInit 1) (0, 2)).2.reward = 1 ∧
    (step (hanoiInit 1) (0, 2)).2.done = some true := by
  refine ⟨(c3_step_rewards (hanoiInit 1) (0, 1)).1 ?_ ?_,
    (c3_step_rewards (hanoiInit 1) (0, 2)).2 ?_⟩ <;> decide

/-- C4 (amended): on a non-goal state with the terminal flag clear, an
illegal action leaves the state unchanged and returns reward `-0.1`,
`done = False` and info `"Invalid action"` — signalled through the reward
and info, the (total) step function never raising. -/
theorem c4_illegal_step (env : HanoiEnv) (a : Nat × Nat)
    (hill : moveAllowed env.numDisks env.agentState a = false)
    (hg : env.agentState ≠ env.goalState) (hd : env.done = some false) :
    (step env a).2.state = env.agentState ∧
    (step env a).2.reward = -1/10 ∧
    (step env a).2.done = some false ∧
    (step env a).2.info = "Invalid action" ∧
    (step env a).1.agentState = env.agentState := by
  have hstate : (step env a).2.state = env.agentState := by
    rw [step_result_state]
    simp [hill]
  have hgoal : ¬(step env a).2.state = env.goalState := by
    rw [hstate]; exact hg
  refine ⟨hstate, ?_, ?_, ?_, ?_⟩
  · rw [step_result_reward, if_neg hgoal]
    simp [hill]
  · rw [step_result_done, if_neg hgoal, hd]
  · rw [step_result_info, if_neg hgoal]
    simp [hill]
  · rw [step_env_eq]
    exact hstate

/-- Witness for C4 (amended): one disk after reset, illegal action `(1, 0)`
(the source peg is empty). -/
theorem c4_illegal_step_witness :
    (step (reset (hanoiInit 1)).1 (1, 0)).2.state = (reset (hanoiInit 1)).1.agentState ∧
    (step (reset (hanoiInit 1)).1 (1, 0)).2.reward = -1/10 ∧
    (step (reset (hanoiInit 1)).1 (1, 0)).2.done = some false ∧
    (step (reset (hanoiInit 1)).1 (1, 0)).2.info = "Invalid action" := by
  have h := c4_illegal_step (reset (hanoiInit 1)).1 (1, 0) (by decide) (by decide) rfl
  exact ⟨h.1, h.2.1, h.2.2.1, h.2.2.2.1⟩

/-- Counterexample to C4 as stated: at the goal state every action with an
empty source peg is illegal, yet `step` then returns reward `+1.0` and
`done = True`, not reward `-0.1` and `done = false` — the goal branch
overrides the illegal-action outcome. -/
theorem c4_counterexample :
    moveAllowed 1 [2] (0, 1) = false ∧
    (step { numDisks := 1, agentState := [2], goalState := [2],
            reward := 0, done := some false } (0, 1)).2.reward = 1 ∧
    (step { numDisks := 1, agentState := [2], goalState := [2],
            reward := 0, done := some false } (0, 1)).2.done = some true ∧
    (step { numDisks := 1, agentState := [2], goalState := [2],
            reward := 0, done := some false } (0, 1)).2.reward ≠ -1/10 := by
  have hg : (step { numDisks := 1, agentState := [2], goalState := [2],
                    reward := 0, done := some false } (0, 1)).2.state =
      ({ numDisks := 1, agentState := [2], goalState := [2],
         reward := 0, done := some false } : HanoiEnv).goalState := by decide
  refine ⟨rfl, ?_, ?_, ?_⟩
  · rw [step_result_reward, if_pos hg]
  · rw [step_result_done, if_pos hg]
  · rw [step_result_reward, if_pos hg]
    norm_num

/-- C5: `state_to_index` is the base-3 encoding with disk 0 most
significant, a bijection from the length-`n` states with entries in
`{0,1,2}` onto `[0, 3^n)`; `indexToState` inverts it on valid states, the
all-zeros initial state maps to 0 and the all-twos goal state maps to
`3^n - 1`. -/
theorem c5_state_to_index_bijection (n : Nat) :
    (∀ state : List Nat, state.length = n → (∀ x ∈ state, x < 3) →
      indexToState n (state_to_index state) = state ∧
      state_to_index state < 3 ^ n ∧
      state_to_index state =
        ∑ i in Finset.range n, state.getD i 0 * 3 ^ (n - 1 - i)) ∧
    (∀ index : Nat, index < 3 ^ n →
      (indexToState n index).length = n ∧
      (∀ x ∈ indexToState n index, x < 3) ∧
      state_to_index (indexToState n index) = index) ∧
    state_to_index (List.replicate n 0) = 0 ∧
    state_to_index (List.replicate n 2) = 3 ^ n - 1 := by
  refine ⟨?_, ?_, state_to_index_replicate_zero n, state_to_index_replicate_two n⟩
  · intro state hlen hmem
    subst hlen
    exact ⟨indexToState_state_to_index state hmem, state_to_index_lt state hmem,
      state_to_index_eq_sum state⟩
  · intro index hidx
    refine ⟨indexToState_length n index, indexToState_mem_lt n index, ?_⟩
    rw [state_to_index_indexToState, Nat.mod_eq_of_lt hidx]

/-- Witness for C5 with two disks: round trip at `[1, 2]`, decode-encode at
index 5, and the goal state's index `3^2 - 1`. -/
theorem c5_state_to_index_bijection_witness :
    indexToState 2 (state_to_index [1, 2]) = [1, 2] ∧
    state_to_index (indexToState 2 5) = 5 ∧
    state_to_index (List.replicate 2 2) = 3 ^ 2 - 1 := by
  refine ⟨((c5_state_to_index_bijection 2).1 [1, 2] rfl ?_).1,
    ((c5_state_to_index_bijection 2).2.1 5 ?_).2.2,
    (c5_state_to_index_bijection 2).2.2.2⟩ <;> decide

/-- C6: a legal step changes exactly one entry — the smallest disk on the
source peg moves to the destination peg, all other disks keep their peg —
and an illegal step returns the state unchanged. -/
theorem c6_frame (env : HanoiEnv) (a : Nat × Nat) (ha : a ∈ actionToMove)
    (hlen : env.agentState.length = env.numDisks) :
    (moveAllowed env.numDisks env.agentState a = true →
      a.1 ≠ a.2 ∧
      listMin (disksOnPeg env.numDisks env.agentState a.1) < env.agentState.length ∧
      env.agentState.getD (listMin (disksOnPeg env.numDisks env.agentState a.1)) 3 = a.1 ∧
      (step env a).2.state.getD (listMin (disksOnPeg env.numDisks env.agentState a.1)) 3 = a.2 ∧
      (∀ j : Nat, j ≠ listMin (disksOnPeg env.numDisks env.agentState a.1) →
        (step env a).2.state.getD j 3 = env.agentState.getD j 3)) ∧
    (moveAllowed env.numDisks env.agentState a = false →
      (step env a).2.state = env.agentState) := by
  constructor
  · intro hl
    have hne : disksOnPeg env.numDisks env.agentState a.1 ≠ [] :=
      moveAllowed_from_nonempty hl
    have hmem := listMin_mem _ hne
    rw [mem_disksOnPeg] at hmem
    have hdlt : listMin (disksOnPeg env.numDisks env.agentState a.1) <
        env.agentState.length := by
      rw [hlen]; exact hmem.1
    have hstate : (step env a).2.state =
        env.agentState.set (listMin (disksOnPeg env.numDisks env.agentState a.1)) a.2 := by
      rw [step_result_state, if_pos hl]
    have hdistinct : ∀ p ∈ actionToMove, p.1 ≠ p.2 := by decide
    refine ⟨hdistinct a ha, hdlt, hmem.2, ?_, ?_⟩
    · rw [hstate, List.getD_eq_getElem?_getD, List.getElem?_set_eq_of_lt a.2 hdlt]
      rfl
    · intro j hj
      rw [hstate, List.getD_eq_getElem?_getD,
        List.getElem?_set_ne (fun h => hj h.symm), ← List.getD_eq_getElem?_getD]
  · intro hl
    rw [step_result_state]
    simp [hl]

/-- Witness for C6 with two disks on peg 0 and the legal action `(0, 1)`:
disk 0 (the source peg's minimum) lands on peg 1 and disk 1 stays put. -/
theorem c6_frame_witness :
    (step (reset (hanoiInit 2)).1 (0, 1)).2.state.getD
      (listMin (disksOnPeg (reset (hanoiInit 2)).1.numDisks
        (reset (hanoiInit 2)).1.agentState 0)) 3 = 1 ∧
    (step (reset (hanoiInit 2)).1 (0, 1)).2.state.getD 1 3 =
      (reset (hanoiInit 2)).1.agentState.getD 1 3 := by
  have h := (c6_frame (reset (hanoiInit 2)).1 (0, 1) (by decide) (by decide)).1 (by decide)
  exact ⟨h.2.2.2.1, h.2.2.2.2 1 (by decide)⟩

/-- C7 (amended): construction never fails and performs no validation —
for every integer `numDisks` (including non-positive values) the
constructor returns an environment with `max(numDisks, 0)` disks all on
peg 0 and a clear terminal flag, and for `numDisks ≤ 0` that initial state
is empty and already equals the goal state; hyperparameters are never
range-checked. -/
theorem c7_no_validation (numDisks : Int) :
    (hanoiInit numDisks).agentState = List.replicate numDisks.toNat 0 ∧
    (hanoiInit numDisks).goalState = List.replicate numDisks.toNat 2 ∧
    (hanoiInit numDisks).done = none ∧
    (numDisks ≤ 0 →
      (hanoiInit numDisks).agentState = (hanoiInit numDisks).goalState) := by
  refine ⟨rfl, rfl, rfl, ?_⟩
  intro h
  have h0 : numDisks.toNat = 0 := Int.toNat_of_nonpos h
  simp [hanoiInit, h0]

/-- Witness for C7 (amended) at `numDisks = -3`. -/
theorem c7_no_validation_witness :
    (hanoiInit (-3)).agentState = List.replicate (Int.toNat (-3)) 0 ∧
    (hanoiInit (-3)).agentState = (hanoiInit (-3)).goalState := by
  have h := c7_no_validation (-3)
  exact ⟨h.1, h.2.2.2 (by decide)⟩

/-- Counterexample to C7 as stated: `HanoiTower(0)` (and any non-positive
`numDisks`) constructs an ordinary environment instead of failing fast —
the constructor contains no check at all — and training can immediately
take a step on it, even with out-of-range `alpha = gamma = 2`. -/
theorem c7_counterexample :
    hanoiInit 0 = { numDisks := 0, agentState := [], goalState := [],
                    reward := 0, done := none } ∧
    hanoiInit (-1) = hanoiInit 0 ∧
    (trainStep (hanoiInit 0) (fun _ _ => 0) [] 0 2 2).2.2.2 = true := by
  refine ⟨rfl, rfl, ?_⟩
  decide

/-- C9: starting from any state whose entries are pegs in `{0,1,2}`, the
state returned by `step` for an action of the 6-action table again has all
entries in `{0,1,2}`, and `reset` returns a state with all entries in
`{0,1,2}`. -/
theorem c9_peg_range (env : HanoiEnv) (a : Nat × Nat) (ha : a ∈ actionToMove)
    (hstate : ∀ x ∈ env.agentState, x < 3) :
    (∀ x ∈ (step env a).2.state, x < 3) ∧
    (∀ x ∈ (reset env).2, x < 3) := by
  constructor
  · intro x hx
    rw [step_result_state] at hx
    by_cases hl : moveAllowed env.numDisks env.agentState a = true
    · rw [if_pos hl] at hx
      rcases List.mem_or_eq_of_mem_set hx with h | h
      · exact hstate x h
      · subst h
        have h2 : ∀ p ∈ actionToMove, p.2 < 3 := by decide
        exact h2 a ha
    · rw [if_neg hl] at hx
      exact hstate x hx
  · intro x hx
    have hx0 : x ∈ List.replicate env.numDisks 0 := hx
    have := List.eq_of_mem_replicate hx0
    simp [this]

/-- Witness for C9: two disks after reset, action `(0, 1)`. -/
theorem c9_peg_range_witness :
    (∀ x ∈ (step (reset (hanoiInit 2)).1 (0, 1)).2.state, x < 3) ∧
    (∀ x ∈ (reset (reset (hanoiInit 2)).1).2, x < 3) :=
  c9_peg_range (reset (hanoiInit 2)).1 (0, 1) (by decide) (by decide)

/-- C10 (amended): once the terminal flag is true, every step returns and
stores `done = True` for any action — `step` never clears the flag, and any
change it makes to the flag sets it to true; only `reset` clears it; at the
goal state an illegal action returns reward `+1.0` and `done = True`, while
a legal action moves a disk off the goal and earns the ordinary `-0.001`. -/
theorem c10_done_monotone (env : HanoiEnv) (a : Nat × Nat) :
    (env.done = some true →
      (step env a).2.done = some true ∧ (step env a).1.done = some true) ∧
    ((step env a).2.done ≠ env.done → (step env a).2.done = some true) ∧
    (reset env).1.done = some false ∧
    (env.agentState = env.goalState →
      moveAllowed env.numDisks env.agentState a = false →
      (step env a).2.reward = 1 ∧ (step env a).2.done = some true) := by
  refine ⟨?_, ?_, rfl, ?_⟩
  · intro hd
    have h2 : (step env a).2.done = some true := by
      rw [step_result_done]
      by_cases h : (step env a).2.state = env.goalState
      · rw [if_pos h]
      · rw [if_neg h]
        exact hd
    refine ⟨h2, ?_⟩
    rw [step_env_eq]
    exact h2
  · intro hne
    rw [step_result_done] at hne ⊢
    by_cases h : (step env a).2.state = env.goalState
    · rw [if_pos h]
    · rw [if_neg h] at hne
      exact absurd rfl hne
  · intro hg hil
    have hstate : (step env a).2.state = env.agentState := by
      rw [step_result_state]
      simp [hil]
    have hgoal : (step env a).2.state = env.goalState := by
      rw [hstate]
      exact hg
    constructor
    · rw [step_result_reward, if_pos hgoal]
    · rw [step_result_done, if_pos hgoal]

/-- Witness for C10 (amended): a terminal flag stays true across a step,
and an illegal action at the goal state yields reward `1`. -/
theorem c10_done_monotone_witness :
    (step { numDisks := 1, agentState := [1], goalState := [2],
            reward := 0, done := some true } (0, 1)).2.done = some true ∧
    (step { numDisks := 1, agentState := [2], goalState := [2],
            reward := 0, done := some false } (1, 0) : HanoiEnv × StepResult).2.reward = 1 := by
  refine ⟨((c10_done_monotone _ (0, 1)).1 rfl).1,
    ((c10_done_monotone _ (1, 0)).2.2.2 rfl (by decide)).1⟩

/-- Counterexample to C10's parenthetical as stated: at the goal state the
action `(2, 0)` is legal, moves disk 0 off peg 2, and returns reward
`-0.001`, not `+1.0` (while `done` remains true). -/
theorem c10_counterexample :
    moveAllowed 1 [2] (2, 0) = true ∧
    (step { numDisks := 1, agentState := [2], goalState := [2],
            reward := 0, done := some true } (2, 0)).2.reward = -1/1000 ∧
    (step { numDisks := 1, agentState := [2], goalState := [2],
            reward := 0, done := some true } (2, 0)).2.reward ≠ 1 ∧
    (step { numDisks := 1, agentState := [2], goalState := [2],
            reward := 0, done := some true } (2, 0)).2.done = some true := by
  have hl : moveAllowed 1 [2] (2, 0) = true := rfl
  have hg : ¬(step { numDisks := 1, agentState := [2], goalState := [2],
                     reward := 0, done := some true } (2, 0)).2.state =
      ({ numDisks := 1, agentState := [2], goalState := [2],
         reward := 0, done := some true } : HanoiEnv).goalState := by decide
  refine ⟨hl, ?_, ?_, ?_⟩
  · rw [step_result_reward, if_neg hg, if_pos hl]
  · rw [step_result_reward, if_neg hg, if_pos hl]
    norm_num
  · rw [step_result_done, if_neg hg]
